import Mathlib

/-!
Verification development for the type system, indexing pipeline, project
configuration and output handling of the rusty structured-text compiler.
Definitions are shallow embeddings of the Rust sources; machine integers
are modelled as Nat or Int with explicit reductions modulo two to the
wordsize where the Rust code truncates or wraps.
-/

namespace Rusty

/-- Modelled from the spec: the nature lattice (section 3 and the glossary);
the Rust enum TypeNature and its derives relation live in the ast module
root, which is not among the provided sources. An arrow parent to child in
the lattice Any to Elementary to (Magnitude to (Num to (Int to
(Signed or Unsigned), Real), Duration), Bit, Chars to (Char, String), Date)
makes the child derive the parent. -/
inductive TypeNature
  | any
  | elementary
  | magnitude
  | num
  | real
  | int
  | signed
  | unsigned
  | duration
  | bit
  | chars
  | string
  | char
  | date
deriving DecidableEq

/-- derives is reflexive and follows child-to-parent edges of the lattice. -/
def TypeNature.derives (self other : TypeNature) : Bool :=
  if self = other then true
  else
    match self with
    | .signed => other = .int || other = .num || other = .magnitude || other = .elementary || other = .any
    | .unsigned => other = .int || other = .num || other = .magnitude || other = .elementary || other = .any
    | .int => other = .num || other = .magnitude || other = .elementary || other = .any
    | .real => other = .num || other = .magnitude || other = .elementary || other = .any
    | .num => other = .magnitude || other = .elementary || other = .any
    | .duration => other = .magnitude || other = .elementary || other = .any
    | .magnitude => other = .elementary || other = .any
    | .bit => other = .elementary || other = .any
    | .char => other = .chars || other = .elementary || other = .any
    | .string => other = .chars || other = .elementary || other = .any
    | .chars => other = .elementary || other = .any
    | .date => other = .elementary || other = .any
    | .elementary => other = .any
    | .any => false

def TypeNature.isNumerical (self : TypeNature) : Bool := self.derives .num

def TypeNature.isReal (self : TypeNature) : Bool := self.derives .real

/-- typesystem.rs StringEncoding. -/
inductive StringEncoding
  | utf8
  | utf16
deriving DecidableEq

/-- typesystem.rs StringEncoding::get_bytes_per_char. -/
def StringEncoding.getBytesPerChar : StringEncoding → Nat
  | .utf8 => 1
  | .utf16 => 2

/-- typesystem.rs TypeSize: a literal i64 or a ConstId reference into the
constant expression store. -/
inductive TypeSize
  | literalInteger (v : Int)
  | constExpression (id : Nat)
deriving DecidableEq

/-- typesystem.rs Dimension. -/
structure Dimension where
  start_offset : TypeSize
  end_offset : TypeSize
deriving DecidableEq

/-- ast PouType, as enumerated in the spec data model (section 3). -/
inductive PouType
  | program
  | function
  | functionBlock
  | action
  | cls
  | method
deriving DecidableEq

/-- typesystem.rs StructSource. -/
inductive StructSource
  | originalDeclaration
  | pou (kind : PouType)
deriving DecidableEq

/-- typesystem.rs DataTypeDefinition. The SubRange variant also carries the
bound expressions (AST statements) in Rust; they are not consulted by any
of the size, rank or class functions embedded here and are omitted. -/
inductive DataTypeDefinition
  | struct (container_name : String) (member_names : List String) (source : StructSource)
  | array (inner_type_name : String) (dimensions : List Dimension)
  | pointer (inner_type_name : String) (auto_deref : Bool)
  | integer (signed : Bool) (size : Nat) (semantic_size : Option Nat)
  | enum (referenced_type : String) (elements : List String)
  | float (size : Nat)
  | string (size : TypeSize) (encoding : StringEncoding)
  | subRange (referenced_type : String)
  | alias (referenced_type : String)
  | generic (generic_symbol : String) (nature : TypeNature)
  | void
deriving DecidableEq

/-- typesystem.rs DataType. The declaration location and the optional
sub-range bounds are not consulted by the embedded functions and are
omitted; name, initial value, definition, nature and alias_of are kept. -/
structure DataType where
  name : String
  initial_value : Option Nat := none
  definition : DataTypeDefinition
  nature : TypeNature
  alias_of : Option String := none
deriving DecidableEq

/-- typesystem.rs DataType::is_numerical (delegates to the nature). -/
def DataType.isNumerical (dt : DataType) : Bool := dt.nature.isNumerical

/-- typesystem.rs DataType::is_real (delegates to the nature). -/
def DataType.isReal (dt : DataType) : Bool := dt.nature.isReal

/-- The global index restricted to what the embedded typesystem functions
consult: the registered types, and the constant expression store as a map
from ConstId to the resolved integer value (none when unresolved). -/
structure Index where
  types : List DataType
  constInts : Nat → Option Int

/-- index.get_type(name): look a type up by its name. Name lookup in the
Rust index is case-insensitive; all names appearing here are uppercase, so
exact matching is used. -/
def Index.getType (idx : Index) (name : String) : Option DataType :=
  idx.types.find? (fun dt => dt.name = name)

/-- Modelled from the spec: find_intrinsic_type of the index (not among the
provided sources) follows alias and sub-range definitions to the intrinsic
definition (section 4.3 describes the effective-type lookup). The fuel
bounds the number of hops through the index. -/
def findIntrinsicTypeAux (idx : Index) : Nat → DataTypeDefinition → DataTypeDefinition
  | 0, d => d
  | fuel + 1, d =>
    match d with
    | .alias rt =>
      match idx.getType rt with
      | some dt => findIntrinsicTypeAux idx fuel dt.definition
      | none => .alias rt
    | .subRange rt =>
      match idx.getType rt with
      | some dt => findIntrinsicTypeAux idx fuel dt.definition
      | none => .subRange rt
    | d => d

/-- Fuel that always suffices to resolve through the registered types. -/
def Index.defaultFuel (idx : Index) : Nat := idx.types.length + 1

def Index.findIntrinsicType (idx : Index) (d : DataTypeDefinition) : DataTypeDefinition :=
  findIntrinsicTypeAux idx idx.defaultFuel d

/-- typesystem.rs TypeSize::as_int_value: a literal evaluates to itself, a
constant reference is queried in the constant store and is an error when
no integer value is known for it. -/
def TypeSize.asIntValue (ts : TypeSize) (idx : Index) : Except String Int :=
  match ts with
  | .literalInteger v => .ok v
  | .constExpression id =>
    match idx.constInts id with
    | some v => .ok v
    | none => .error "constant expression is not resolved to an int"

/-- typesystem.rs Dimension::get_length: (end - start + 1) computed in i64
and then cast to u32 with `as`, which truncates to the low 32 bits. -/
def Dimension.getLength (dim : Dimension) (idx : Index) : Except String Nat := do
  let e ← dim.end_offset.asIntValue idx
  let s ← dim.start_offset.asIntValue idx
  pure ((e - s + 1) % (2 ^ 32 : Int)).toNat

/-- Modelled from the spec: datalayout.rs (the Bytes newtype) is not among
the provided sources. A Bytes value counts whole bytes; from_bits rounds a
bit count up to whole bytes and bits converts back. The typesystem tests
pin the composite behaviour (INT is 16 bits, an array of 20 INT is 320
bits), which this model satisfies. -/
structure Bytes where
  value : Nat
deriving DecidableEq

def Bytes.fromBits (bits : Nat) : Bytes := ⟨(bits + 7) / 8⟩

def Bytes.bits (b : Bytes) : Nat := b.value * 8

/-- The pointer width of the compilation target (usize::BITS, 64). -/
def POINTER_SIZE : Nat := 64

/-- The u32 modulus used where Rust casts i64 to u32 or multiplies u32. -/
def U32MOD : Nat := 2 ^ 32

/-- index.get_type_information_or_void: the definition of the named type,
or Void when the name is not registered. -/
def Index.getTypeInformationOrVoid (idx : Index) (name : String) : DataTypeDefinition :=
  match idx.getType name with
  | some dt => dt.definition
  | none => .void

/-- Modelled from the spec: find_effective_type_info of the index (not
among the provided sources) resolves the named type and follows aliases
and sub-ranges to the intrinsic definition (section 4.3). -/
def Index.findEffectiveTypeInfo (idx : Index) (name : String) : Option DataTypeDefinition :=
  (idx.getType name).map (fun dt => idx.findIntrinsicType dt.definition)

/-- typesystem.rs DataTypeDefinition::get_size, returning none where the
Rust code panics (an unwrap of a failed string-size or dimension-length
query) and none when the fuel bounding recursion through the index runs
out (the Rust code recurses unboundedly; any fuel at least the nesting
depth of the queried type gives the code value). Struct sizes additionally
need the member table of the index, which is not among the provided
sources; no claim concerns them and the query is treated as failed. -/
def getSize : Nat → Index → DataTypeDefinition → Option Bytes
  | 0, _, _ => none
  | fuel + 1, idx, d =>
    match d with
    | .integer _ size _ => some (.fromBits size)
    | .float size => some (.fromBits size)
    | .string size encoding =>
      match size.asIntValue idx with
      | .ok v => some (.fromBits ((encoding.getBytesPerChar * (v % (U32MOD : Int)).toNat) % U32MOD))
      | .error _ => none
    | .struct _ _ _ => none
    | .array inner_type_name dimensions =>
      let innerDef := idx.getTypeInformationOrVoid inner_type_name
      match (getSize fuel idx innerDef).map Bytes.bits with
      | none => none
      | some innerSize =>
        match dimensions.mapM (fun dim => (dim.getLength idx).toOption) with
        | none => none
        | some lengths =>
          let elementCount := lengths.prod % U32MOD
          some (.fromBits ((innerSize * elementCount) % U32MOD))
    | .pointer _ _ => some (.fromBits POINTER_SIZE)
    | .alias referenced_type =>
      getSize fuel idx (idx.getTypeInformationOrVoid referenced_type)
    | .subRange referenced_type =>
      getSize fuel idx (idx.getTypeInformationOrVoid referenced_type)
    | .enum referenced_type _ =>
      match idx.findEffectiveTypeInfo referenced_type with
      | some d => getSize fuel idx d
      | none => some (.fromBits 32)
    | .generic _ _ => some (.fromBits 0)
    | .void => some (.fromBits 0)

/-- typesystem.rs DataTypeDefinition::get_size_in_bits. -/
def getSizeInBits (fuel : Nat) (idx : Index) (d : DataTypeDefinition) : Option Nat :=
  (getSize fuel idx d).map Bytes.bits

/-- typesystem.rs get_rank. Integer rank is size plus one if signed; float
rank is size plus 1000; a string with a literal size takes that size
(none models the panicking try_into().unwrap() when it does not fit u32)
and a string with a constant-expression size reaches a todo! panic,
modelled as none; an enum takes the rank of its effective underlying type
or DINT_SIZE when that cannot be found; every other definition falls back
to its size in bits. -/
def getRank : Nat → Index → DataTypeDefinition → Option Nat
  | 0, _, _ => none
  | fuel + 1, idx, d =>
    match d with
    | .integer signed size _ => some (if signed then size + 1 else size)
    | .float size => some (size + 1000)
    | .string (.literalInteger v) _ =>
      if 0 ≤ v ∧ v < (U32MOD : Int) then some v.toNat else none
    | .string (.constExpression _) _ => none
    | .enum referenced_type _ =>
      match idx.findEffectiveTypeInfo referenced_type with
      | some d => getRank fuel idx d
      | none => some 32
    | d => getSizeInBits (fuel + 1) idx d

/-- Modelled from the spec: find_elementary_pointer_type of the index (not
among the provided sources) follows pointer definitions through the index
to the pointed-to elementary definition. -/
def findElementaryPointerTypeAux (idx : Index) : Nat → DataTypeDefinition → DataTypeDefinition
  | 0, d => d
  | fuel + 1, d =>
    match d with
    | .pointer inner_type_name _ =>
      match idx.getType inner_type_name with
      | some dt => findElementaryPointerTypeAux idx fuel dt.definition
      | none => .void
    | d => d

def Index.findElementaryPointerType (idx : Index) (d : DataTypeDefinition) : DataTypeDefinition :=
  findElementaryPointerTypeAux idx idx.defaultFuel d

/-- typesystem.rs is_same_type_class: both intrinsic definitions integers,
both floats, strings of the same encoding, a pointer against the
pointer-width integer or against a pointer to the same elementary type;
all remaining cases compare the intrinsic definitions for equality. -/
def isSameTypeClass (idx : Index) (ltype rtype : DataTypeDefinition) : Bool :=
  let lt := idx.findIntrinsicType ltype
  let rt := idx.findIntrinsicType rtype
  match lt with
  | .integer _ _ _ =>
    match rt with
    | .integer _ _ _ => true
    | _ => false
  | .float _ =>
    match rt with
    | .float _ => true
    | _ => false
  | .string _ lenc =>
    match rt with
    | .string _ encoding => encoding = lenc
    | _ => false
  | .pointer _ _ =>
    match rt with
    | .integer _ size _ => size = POINTER_SIZE
    | .pointer _ _ =>
      idx.findElementaryPointerType lt = idx.findElementaryPointerType rt
    | _ => false
  | _ => lt = rt

/-- typesystem.rs get_bigger_type. Returns none exactly where the Rust
code panics: a rank query that panics inside the same-class comparison, or
a get_type_or_panic lookup of REAL or LREAL that fails. -/
def getBiggerType (idx : Index) (left_type right_type : DataType) : Option DataType :=
  let lt := left_type.definition
  let rt := right_type.definition
  let ldt := idx.getType left_type.name
  let rdt := idx.getType right_type.name
  if isSameTypeClass idx lt rt then
    match getRank idx.defaultFuel idx lt, getRank idx.defaultFuel idx rt with
    | some lrank, some rrank => if lrank < rrank then some right_type else some left_type
    | _, _ => none
  else
    match ldt, rdt with
    | some ld, some rd =>
      if (ld.isNumerical && rd.isNumerical) && (ld.isReal || rd.isReal) then
        match idx.getType "REAL" with
        | none => none
        | some realType =>
          match getSizeInBits idx.defaultFuel idx realType.definition with
          | none => none
          | some realSize =>
            match getSizeInBits idx.defaultFuel idx lt with
            | none => none
            | some lsize =>
              if realSize < lsize then idx.getType "LREAL"
              else
                match getSizeInBits idx.defaultFuel idx rt with
                | none => none
                | some rsize =>
                  if realSize < rsize then idx.getType "LREAL" else some realType
      else some left_type
    | _, _ => some left_type

/-- typesystem.rs get_builtin_types: the internal built-in types that are
registered unconditionally (VOID, the raw width types, BOOL, the two
floats, the default strings and the two character types). Every entry
carries no initial value and no alias. -/
def getBuiltinTypes : List DataType :=
  [ ⟨"VOID", none, .void, .any, none⟩,
    ⟨"UINT1", none, .integer false 1 none, .bit, none⟩,
    ⟨"UINT8", none, .integer false 8 none, .unsigned, none⟩,
    ⟨"UINT16", none, .integer false 16 none, .unsigned, none⟩,
    ⟨"UINT32", none, .integer false 32 none, .unsigned, none⟩,
    ⟨"UINT64", none, .integer false 64 none, .unsigned, none⟩,
    ⟨"INT8", none, .integer true 8 none, .signed, none⟩,
    ⟨"INT16", none, .integer true 16 none, .signed, none⟩,
    ⟨"INT32", none, .integer true 32 none, .signed, none⟩,
    ⟨"INT64", none, .integer true 64 none, .signed, none⟩,
    ⟨"BOOL", none, .integer false 8 (some 1), .bit, none⟩,
    ⟨"REAL32", none, .float 32, .real, none⟩,
    ⟨"REAL64", none, .float 64, .real, none⟩,
    ⟨"STRING", none, .string (.literalInteger 81) .utf8, .string, none⟩,
    ⟨"WSTRING", none, .string (.literalInteger 81) .utf16, .string, none⟩,
    ⟨"CHAR", none, .integer false 8 none, .char, none⟩,
    ⟨"WCHAR", none, .integer false 16 none, .char, none⟩ ]

/-- Modelled from the spec: typesystem/iec61131_types.rs (declared as a
module of typesystem.rs but not among the provided sources) registers the
IEC 61131-3 names of section 6 as aliases of the internal built-in types;
after alias resolution each entry carries a copy of the aliased definition
(see DataType::create_alias and clone_with_new_name). The natures are the
ones asserted by the typesystem tests (signed, unsigned, real, bit,
duration, date families); the date and time types use the 64-bit
DATE_TIME_SIZE of typesystem.rs. -/
def iecAliasTypes : List DataType :=
  [ ⟨"BYTE", none, .integer false 8 none, .bit, some "UINT8"⟩,
    ⟨"SINT", none, .integer true 8 none, .signed, some "INT8"⟩,
    ⟨"USINT", none, .integer false 8 none, .unsigned, some "UINT8"⟩,
    ⟨"WORD", none, .integer false 16 none, .bit, some "UINT16"⟩,
    ⟨"INT", none, .integer true 16 none, .signed, some "INT16"⟩,
    ⟨"UINT", none, .integer false 16 none, .unsigned, some "UINT16"⟩,
    ⟨"DWORD", none, .integer false 32 none, .bit, some "UINT32"⟩,
    ⟨"DINT", none, .integer true 32 none, .signed, some "INT32"⟩,
    ⟨"UDINT", none, .integer false 32 none, .unsigned, some "UINT32"⟩,
    ⟨"LWORD", none, .integer false 64 none, .bit, some "UINT64"⟩,
    ⟨"LINT", none, .integer true 64 none, .signed, some "INT64"⟩,
    ⟨"ULINT", none, .integer false 64 none, .unsigned, some "UINT64"⟩,
    ⟨"REAL", none, .float 32, .real, some "REAL32"⟩,
    ⟨"LREAL", none, .float 64, .real, some "REAL64"⟩,
    ⟨"TIME", none, .integer true 64 none, .duration, none⟩,
    ⟨"LTIME", none, .integer true 64 none, .duration, none⟩,
    ⟨"DATE", none, .integer true 64 none, .date, none⟩,
    ⟨"LDATE", none, .integer true 64 none, .date, none⟩,
    ⟨"DATE_AND_TIME", none, .integer true 64 none, .date, none⟩,
    ⟨"LDATE_AND_TIME", none, .integer true 64 none, .date, none⟩,
    ⟨"TIME_OF_DAY", none, .integer true 64 none, .date, none⟩,
    ⟨"LTIME_OF_DAY", none, .integer true 64 none, .date, none⟩,
    ⟨"DT", none, .integer true 64 none, .date, some "DATE_AND_TIME"⟩,
    ⟨"LDT", none, .integer true 64 none, .date, some "LDATE_AND_TIME"⟩,
    ⟨"TOD", none, .integer true 64 none, .date, some "TIME_OF_DAY"⟩,
    ⟨"LTOD", none, .integer true 64 none, .date, some "LTIME_OF_DAY"⟩ ]

/-- The global index of an empty project after the indexing stage: the
built-in types together with the IEC alias catalog, and an empty constant
store. -/
def catalogIndex : Index := ⟨getBuiltinTypes ++ iecAliasTypes, fun _ => none⟩

/-- The mutations performed on the global index during
ParsedProject::index of plc_driver pipelines.rs, in program order:
importing the per-unit index of a user compilation unit (identified here
by its position in the parsed project), registering one built-in type by
name, and importing the index of the parsed built-in functions. -/
inductive IndexEvent
  | importUnit (unit : Nat)
  | registerBuiltinType (name : String)
  | importBuiltinPous
deriving DecidableEq

def builtinTypeNames : List String := getBuiltinTypes.map (fun dt => dt.name)

/-- pipelines.rs ParsedProject::index: every per-unit index is imported
into the fresh global index first, then each type of get_builtin_types is
registered, then the built-in functions are imported. -/
def indexStageEvents (parsedUnits : List Nat) : List IndexEvent :=
  parsedUnits.map IndexEvent.importUnit
    ++ builtinTypeNames.map IndexEvent.registerBuiltinType
    ++ [IndexEvent.importBuiltinPous]

/-- ast/literals.rs AstLiteral. The payloads not consulted by
get_literal_actual_signed_type_name are reduced to the fields of the
corresponding Rust structs that identify the value (the integer value is
an i128 in Rust, modelled as an unbounded Int; the Real payload is the
textual value). -/
inductive AstLiteral
  | null
  | integer (value : Int)
  | date (year : Int) (month : Nat) (day : Nat)
  | dateAndTime (year : Int) (month : Nat) (day : Nat) (hour : Nat) (min : Nat) (sec : Nat) (nano : Nat)
  | timeOfDay (hour : Nat) (min : Nat) (sec : Nat) (nano : Nat)
  | time (negative : Bool) (nanos : Nat)
  | real (value : String)
  | bool (value : Bool)
  | string (value : String) (is_wide : Bool)
  | array (elements : List Nat)
deriving DecidableEq

/-- ast/literals.rs AstLiteral::get_literal_actual_signed_type_name. The
arms are in source order: an integer that is 0 or 1 is BOOL before the
signedness of the context is even consulted; then the smallest covering
type of the requested signedness (is_covered_by against i8..i64 or
u8..u64), else VOID; the other literal kinds map to their fixed types and
Null and Array map to none. -/
def getLiteralActualSignedTypeName (lit : AstLiteral) (signed : Bool) : Option String :=
  match lit with
  | .integer value =>
    if value = 0 ∨ value = 1 then some "BOOL"
    else if signed = true ∧ -(2 ^ 7 : Int) ≤ value ∧ value ≤ 2 ^ 7 - 1 then some "SINT"
    else if signed = true ∧ -(2 ^ 15 : Int) ≤ value ∧ value ≤ 2 ^ 15 - 1 then some "INT"
    else if signed = true ∧ -(2 ^ 31 : Int) ≤ value ∧ value ≤ 2 ^ 31 - 1 then some "DINT"
    else if signed = true ∧ -(2 ^ 63 : Int) ≤ value ∧ value ≤ 2 ^ 63 - 1 then some "LINT"
    else if signed = false ∧ 0 ≤ value ∧ value ≤ 2 ^ 8 - 1 then some "USINT"
    else if signed = false ∧ 0 ≤ value ∧ value ≤ 2 ^ 16 - 1 then some "UINT"
    else if signed = false ∧ 0 ≤ value ∧ value ≤ 2 ^ 32 - 1 then some "UDINT"
    else if signed = false ∧ 0 ≤ value ∧ value ≤ 2 ^ 64 - 1 then some "ULINT"
    else some "VOID"
  | .bool _ => some "BOOL"
  | .string _ true => some "WSTRING"
  | .string _ false => some "STRING"
  | .real _ => some "LREAL"
  | .date _ _ _ => some "DATE"
  | .dateAndTime _ _ _ _ _ _ _ => some "DATE_AND_TIME"
  | .time _ _ => some "TIME"
  | .timeOfDay _ _ _ _ => some "TIME_OF_DAY"
  | _ => none

/-- The typing rule stated by the claim for signed integer literals: the
smallest signed type among SINT, INT, DINT, LINT that contains the value
(VOID when none does). -/
def smallestSignedIntTypeName (value : Int) : String :=
  if -(2 ^ 7 : Int) ≤ value ∧ value ≤ 2 ^ 7 - 1 then "SINT"
  else if -(2 ^ 15 : Int) ≤ value ∧ value ≤ 2 ^ 15 - 1 then "INT"
  else if -(2 ^ 31 : Int) ≤ value ∧ value ≤ 2 ^ 31 - 1 then "DINT"
  else if -(2 ^ 63 : Int) ≤ value ∧ value ≤ 2 ^ 63 - 1 then "LINT"
  else "VOID"

/-- plc_project object.rs Object: the representation of a binary output
file, each variant carrying the path. -/
inductive Object
  | archive (path : String)
  | shared (path : String)
  | executable (path : String)
  | bitcode (path : String)
  | ir (path : String)
  | dflt (path : String)
deriving DecidableEq

/-- The final component of a path: everything after the last slash. -/
def pathFileName (p : List Char) : List Char :=
  (p.reverse.takeWhile (fun c => c ≠ '/')).reverse

/-- Path::extension of the Rust standard library on the final component:
none when the component has no dot, or when its only dot is the leading
one of a hidden file; otherwise the portion after the final dot. -/
def pathExtension (p : List Char) : Option (List Char) :=
  let f := pathFileName p
  if f.contains '.' then
    if f.head? = some '.' ∧ ¬ f.tail.contains '.' then none
    else some (f.reverse.takeWhile (fun c => c ≠ '.')).reverse
  else none

/-- plc_project object.rs, impl TryFrom of a Path for Object: dispatch on
the extension of the path; o, bc, ir, so and a map to their object kinds,
no extension maps to an executable, and any other extension is a
could-not-derive error. -/
def objectTryFromPath (p : String) : Except String Object :=
  match pathExtension p.data with
  | some e =>
    if e = "o".data then .ok (.dflt p)
    else if e = "bc".data then .ok (.bitcode p)
    else if e = "ir".data then .ok (.ir p)
    else if e = "so".data then .ok (.shared p)
    else if e = "a".data then .ok (.archive p)
    else .error ("Could derive object type for " ++ p ++ ": Unknown extension " ++ ⟨e⟩)
  | none => .ok (.executable p)

/-- An entry of the flat top-level namespace as the global duplicate
validation sees it: a declared datatype or a POU of some kind. -/
inductive GlobalDecl
  | typeDecl (name : String)
  | pouDecl (kind : PouType) (name : String)
deriving DecidableEq

def GlobalDecl.name : GlobalDecl → String
  | .typeDecl n => n
  | .pouDecl _ n => n

/-- Modelled from the spec: the global validator (validation module root,
not among the provided sources) categorizes duplicate top-level names;
a declaration takes part in the ambiguous-datatype check when it is a
declared type or a POU that registers a datatype under its name. The
duplicates validation tests pin that a function block colliding with a
type yields ambiguous-datatype diagnostics while a function colliding
with a type yields none, so function POUs do not take part. -/
def GlobalDecl.registersDatatype : GlobalDecl → Bool
  | .typeDecl _ => true
  | .pouDecl kind _ => kind ≠ .function

/-- A diagnostic of the global duplicate validation: the conflicting name
and the message text. -/
structure Diag where
  name : String
  text : String
deriving DecidableEq

/-- Modelled from the spec: the ambiguous-datatype part of global
validation (section 4.6) emits, for every datatype-registering
declaration whose name is shared with at least one other
datatype-registering declaration, one diagnostic citing that declaration
(one per participating declaration, as the duplicates validation tests
show). -/
def ambiguousDatatypeDiagnostics (decls : List GlobalDecl) : List Diag :=
  let dts := decls.filter GlobalDecl.registersDatatype
  dts.filterMap (fun d =>
    if 2 ≤ dts.countP (fun e => e.name = d.name) then
      some ⟨d.name, "Ambiguous datatype."⟩
    else none)

/-- ASCII model of the word character class of the regex crate used in
build_config.rs (the pattern is backslash-dollar, then captured
backslash-w-plus): letters, digits and the underscore. -/
def isWordChar (c : Char) : Bool := c.isAlphanum || c = '_'

/-- The replace_all pass of build_config.rs resolve_environment_variables:
scan left to right; a dollar followed by at least one word character is a
token whose variable name is the maximal word-character run, replaced by
the value of that environment variable when it is set and kept literally
when it is not; everything else is copied. -/
def substEnvVars (env : String → Option String) : List Char → List Char
  | [] => []
  | c :: rest =>
    if c = '$' then
      let w := rest.takeWhile isWordChar
      if w = [] then '$' :: substEnvVars env rest
      else
        (match env ⟨w⟩ with
         | some v => v.data
         | none => '$' :: w) ++ substEnvVars env (rest.dropWhile isWordChar)
    else c :: substEnvVars env rest
termination_by l => l.length
decreasing_by
  · simp
  · have := (List.dropWhile_suffix (l := rest) isWordChar).length_le
    simp only [List.length_cons]
    omega
  · simp

/-- The final pass of resolve_environment_variables: the str::replace that
rewrites every single backslash to two backslashes. -/
def doubleBackslashes (l : List Char) : List Char :=
  (l.map (fun c => if c = '\\' then ['\\', '\\'] else [c])).flatten

/-- build_config.rs resolve_environment_variables, as applied by
ProjectConfig::try_parse to the descriptor text before it is handed to
the JSON deserializer: environment substitution followed by backslash
doubling. -/
def resolveEnvironmentVariables (env : String → Option String) (l : List Char) : List Char :=
  doubleBackslashes (substEnvVars env l)

instance {ε α : Type} [DecidableEq ε] [DecidableEq α] : DecidableEq (Except ε α) := fun a b =>
  match a, b with
  | .ok x, .ok y => decidable_of_iff (x = y) (by simp)
  | .error x, .error y => decidable_of_iff (x = y) (by simp)
  | .ok _, .error _ => isFalse (by simp)
  | .error _, .ok _ => isFalse (by simp)

/-- The class relation as the claim about get_bigger_type words it: both
integers, both floats, or both strings of the same encoding. -/
def sameClassPerClaim (l r : DataTypeDefinition) : Bool :=
  match l, r with
  | .integer _ _ _, .integer _ _ _ => true
  | .float _, .float _ => true
  | .string _ lenc, .string _ renc => lenc = renc
  | _, _ => false

/-- Definitions that are their own intrinsic and carry no inner type:
integers, floats, strings and void. Every type of the global catalog is
of this shape after alias resolution. -/
def isBasicDef : DataTypeDefinition → Bool
  | .integer _ _ _ => true
  | .float _ => true
  | .string _ _ => true
  | .void => true
  | _ => false

/-- The numeric-promotion condition of get_bigger_type, evaluated on the
index entries registered under the two type names exactly as the code
evaluates it: both lookups succeed, both entries are numerical by nature
and at least one is real. -/
def numericPromotionApplies (idx : Index) (a b : DataType) : Bool :=
  match idx.getType a.name, idx.getType b.name with
  | some ld, some rd => (ld.isNumerical && rd.isNumerical) && (ld.isReal || rd.isReal)
  | _, _ => false

/-- Catalog entries reused by concrete statements below. -/
def uint8Entry : DataType := ⟨"UINT8", none, .integer false 8 none, .unsigned, none⟩

def charEntry : DataType := ⟨"CHAR", none, .integer false 8 none, .char, none⟩

def intEntry : DataType := ⟨"INT", none, .integer true 16 none, .signed, some "INT16"⟩

def realEntry : DataType := ⟨"REAL", none, .float 32, .real, some "REAL32"⟩

def lrealEntry : DataType := ⟨"LREAL", none, .float 64, .real, some "REAL64"⟩

def stringEntry : DataType := ⟨"STRING", none, .string (.literalInteger 81) .utf8, .string, none⟩

def stringConstSizeEntry : DataType := ⟨"STRING_N", none, .string (.constExpression 0) .utf8, .string, none⟩

lemma findIntrinsicTypeAux_basic (idx : Index) (fuel : Nat) (d : DataTypeDefinition)
    (h : isBasicDef d = true) : findIntrinsicTypeAux idx fuel d = d := by
  cases fuel <;> cases d <;> simp_all [findIntrinsicTypeAux, isBasicDef]

lemma findIntrinsicType_basic (idx : Index) (d : DataTypeDefinition)
    (h : isBasicDef d = true) : idx.findIntrinsicType d = d :=
  findIntrinsicTypeAux_basic idx idx.defaultFuel d h

lemma bits_fromBits_of_dvd {n : Nat} (h : 8 ∣ n) : (Bytes.fromBits n).bits = n := by
  obtain ⟨k, rfl⟩ := h
  simp only [Bytes.fromBits, Bytes.bits]
  omega

lemma getRank_void (fuel : Nat) (idx : Index) : getRank (fuel + 1) idx .void = some 0 := by
  simp [getRank, getSizeInBits, getSize, Bytes.fromBits, Bytes.bits]

lemma defaultFuel_succ (idx : Index) : idx.defaultFuel = idx.types.length + 1 := rfl

lemma getBiggerType_sameClass (idx : Index) (l r : DataType) (ra rb : Nat)
    (h : isSameTypeClass idx l.definition r.definition = true)
    (hra : getRank idx.defaultFuel idx l.definition = some ra)
    (hrb : getRank idx.defaultFuel idx r.definition = some rb) :
    getBiggerType idx l r = if ra < rb then some r else some l := by
  simp [getBiggerType, h, hra, hrb]

lemma getBiggerType_notSameClass (idx : Index) (l r : DataType)
    (h : isSameTypeClass idx l.definition r.definition = false)
    (hn : numericPromotionApplies idx l r = false) :
    getBiggerType idx l r = some l := by
  simp only [getBiggerType, h, Bool.false_eq_true, if_false]
  unfold numericPromotionApplies at hn
  cases hl : idx.getType l.name <;> cases hr : idx.getType r.name <;> simp_all

lemma sameClassPerClaim_symm (l r : DataTypeDefinition) :
    sameClassPerClaim l r = sameClassPerClaim r l := by
  (cases l <;> cases r <;> simp [sameClassPerClaim])
  exact eq_comm

lemma sameClass_of_claim (idx : Index) (l r : DataTypeDefinition)
    (hl : isBasicDef l = true) (hr : isBasicDef r = true)
    (h : sameClassPerClaim l r = true) : isSameTypeClass idx l r = true := by
  have el := findIntrinsicTypeAux_basic idx idx.defaultFuel l hl
  have er := findIntrinsicTypeAux_basic idx idx.defaultFuel r hr
  simp only [isSameTypeClass, Index.findIntrinsicType, el, er]
  cases l <;> cases r <;> simp_all [sameClassPerClaim, isBasicDef]

lemma sameClassCode_void_void (idx : Index) (l r : DataTypeDefinition)
    (hl : isBasicDef l = true) (hr : isBasicDef r = true)
    (hc : sameClassPerClaim l r = false)
    (h : isSameTypeClass idx l r = true) : l = .void ∧ r = .void := by
  have el := findIntrinsicTypeAux_basic idx idx.defaultFuel l hl
  have er := findIntrinsicTypeAux_basic idx idx.defaultFuel r hr
  simp only [isSameTypeClass, Index.findIntrinsicType, el, er] at h
  cases l <;> cases r <;> simp_all [sameClassPerClaim, isBasicDef]

/-- C1 (amended): for two data types whose definitions are intrinsic
elementary ones (integer, float, string or void, which covers every entry
of the registered catalog), get_bigger_type applied in both argument
orders returns the same type whenever the two are in the same claim class
and their ranks differ; when the ranks are equal it returns the left
argument (so both orders agree only for identical types); and for every
pair that is neither in the same class nor subject to the int/float
numeric promotion it returns its left argument. -/
theorem getBiggerType_class_behaviour :
    ∀ (idx : Index) (a b : DataType),
      isBasicDef a.definition = true → isBasicDef b.definition = true →
      (∀ ra rb, sameClassPerClaim a.definition b.definition = true →
        getRank idx.defaultFuel idx a.definition = some ra →
        getRank idx.defaultFuel idx b.definition = some rb →
        (ra ≠ rb → getBiggerType idx a b = getBiggerType idx b a) ∧
        (ra = rb → getBiggerType idx a b = some a)) ∧
      (sameClassPerClaim a.definition b.definition = false →
        numericPromotionApplies idx a b = false →
        getBiggerType idx a b = some a) := by
  intro idx a b ha hb
  constructor
  · intro ra rb hcl hra hrb
    have h1 : isSameTypeClass idx a.definition b.definition = true :=
      sameClass_of_claim idx _ _ ha hb hcl
    have hcl2 : sameClassPerClaim b.definition a.definition = true := by
      rw [← sameClassPerClaim_symm]; exact hcl
    have h2 : isSameTypeClass idx b.definition a.definition = true :=
      sameClass_of_claim idx _ _ hb ha hcl2
    rw [getBiggerType_sameClass idx a b ra rb h1 hra hrb,
        getBiggerType_sameClass idx b a rb ra h2 hrb hra]
    constructor
    · intro hne
      rcases Nat.lt_trichotomy ra rb with h | h | h
      · rw [if_pos h, if_neg (by omega)]
      · exact absurd h hne
      · rw [if_neg (by omega), if_pos h]
    · intro heq
      rw [if_neg (by omega)]
  · intro hclf hnum
    by_cases h1 : isSameTypeClass idx a.definition b.definition = true
    · obtain ⟨hv1, hv2⟩ := sameClassCode_void_void idx _ _ ha hb hclf h1
      have hra : getRank idx.defaultFuel idx a.definition = some 0 := by
        rw [hv1, defaultFuel_succ]; exact getRank_void _ idx
      have hrb : getRank idx.defaultFuel idx b.definition = some 0 := by
        rw [hv2, defaultFuel_succ]; exact getRank_void _ idx
      rw [getBiggerType_sameClass idx a b 0 0 h1 hra hrb, if_neg (by omega)]
    · exact getBiggerType_notSameClass idx a b (by simpa using h1) hnum

/-- Witness for the amended C1 theorem: UINT8 and CHAR are in the same
class with equal ranks, and get_bigger_type returns the left argument. -/
theorem getBiggerType_class_behaviour_witness :
    getBiggerType catalogIndex uint8Entry charEntry = some uint8Entry :=
  ((getBiggerType_class_behaviour catalogIndex uint8Entry charEntry (by decide) (by decide)).1
    8 8 (by decide) (by decide) (by decide)).2 rfl

/-- C1 counterexample: UINT8 and CHAR are both registered built-in types
in the same type class (both integers), yet get_bigger_type is not
commutative on them: each order returns its own left argument and the two
types are distinct. -/
theorem getBiggerType_sameClass_not_commutative :
    uint8Entry ∈ getBuiltinTypes ∧ charEntry ∈ getBuiltinTypes ∧
    sameClassPerClaim uint8Entry.definition charEntry.definition = true ∧
    isSameTypeClass catalogIndex uint8Entry.definition charEntry.definition = true ∧
    getBiggerType catalogIndex uint8Entry charEntry = some uint8Entry ∧
    getBiggerType catalogIndex charEntry uint8Entry = some charEntry ∧
    uint8Entry ≠ charEntry := by decide

lemma getBiggerType_promotion_core (idx : Index) (l r realT lrealT : DataType) (ln rn : Nat)
    (hclass : isSameTypeClass idx l.definition r.definition = false)
    (hgl : idx.getType l.name = some l) (hgr : idx.getType r.name = some r)
    (hcond : ((l.isNumerical && r.isNumerical) && (l.isReal || r.isReal)) = true)
    (hreal : idx.getType "REAL" = some realT)
    (hrealsize : getSizeInBits idx.defaultFuel idx realT.definition = some 32)
    (hlsize : getSizeInBits idx.defaultFuel idx l.definition = some ln)
    (hrsize : getSizeInBits idx.defaultFuel idx r.definition = some rn)
    (hlreal : idx.getType "LREAL" = some lrealT) :
    getBiggerType idx l r = some (if ln ≤ 32 ∧ rn ≤ 32 then realT else lrealT) := by
  simp only [getBiggerType, hclass, Bool.false_eq_true, if_false, hgl, hgr, hcond, if_true,
    hreal, hrealsize, hlsize, hrsize]
  by_cases h1 : 32 < ln
  · rw [if_pos h1, hlreal, if_neg (by omega)]
  · rw [if_neg h1]
    by_cases h2 : 32 < rn
    · rw [if_pos h2, hlreal, if_neg (by omega)]
    · rw [if_neg h2, if_pos (by omega)]

/-- C5: for a registered integer type and a registered float type that are
both numerical (the float having the real nature the catalog gives every
float), get_bigger_type returns the registered REAL type when both sizes
fit in 32 bits and the registered LREAL type otherwise, in either
argument order. -/
theorem getBiggerType_int_float_promotion :
    ∀ (idx : Index) (a b realT lrealT : DataType) (sg : Bool) (n m : Nat) (ss : Option Nat),
      a.definition = .integer sg n ss →
      b.definition = .float m →
      idx.getType a.name = some a →
      idx.getType b.name = some b →
      a.isNumerical = true →
      b.nature = .real →
      idx.getType "REAL" = some realT →
      realT.definition = .float 32 →
      idx.getType "LREAL" = some lrealT →
      8 ∣ n → 8 ∣ m →
      getBiggerType idx a b = some (if n ≤ 32 ∧ m ≤ 32 then realT else lrealT) ∧
      getBiggerType idx b a = some (if n ≤ 32 ∧ m ≤ 32 then realT else lrealT) := by
  intro idx a b realT lrealT sg n m ss had hbd hga hgb hna hnb hreal hreald hlreal hdn hdm
  have hab : isSameTypeClass idx a.definition b.definition = false := by
    rw [had, hbd]
    simp [isSameTypeClass, Index.findIntrinsicType, defaultFuel_succ, findIntrinsicTypeAux]
  have hba : isSameTypeClass idx b.definition a.definition = false := by
    rw [had, hbd]
    simp [isSameTypeClass, Index.findIntrinsicType, defaultFuel_succ, findIntrinsicTypeAux]
  have hbn : b.isNumerical = true := by
    simp [DataType.isNumerical, hnb, TypeNature.isNumerical, TypeNature.derives]
  have hbr : b.isReal = true := by
    simp [DataType.isReal, hnb, TypeNature.isReal, TypeNature.derives]
  have hsa : getSizeInBits idx.defaultFuel idx a.definition = some n := by
    rw [had, defaultFuel_succ]
    simp [getSizeInBits, getSize]
    exact bits_fromBits_of_dvd hdn
  have hsb : getSizeInBits idx.defaultFuel idx b.definition = some m := by
    rw [hbd, defaultFuel_succ]
    simp [getSizeInBits, getSize]
    exact bits_fromBits_of_dvd hdm
  have hsreal : getSizeInBits idx.defaultFuel idx realT.definition = some 32 := by
    rw [hreald, defaultFuel_succ]
    simp [getSizeInBits, getSize]
    exact bits_fromBits_of_dvd (by norm_num)
  constructor
  · rw [getBiggerType_promotion_core idx a b realT lrealT n m hab hga hgb
      (by rw [hna, hbn, hbr]; simp) hreal hsreal hsa hsb hlreal]
  · rw [getBiggerType_promotion_core idx b a realT lrealT m n hba hgb hga
      (by rw [hna, hbn, hbr]; simp) hreal hsreal hsb hsa hlreal]
    have : (m ≤ 32 ∧ n ≤ 32) ↔ (n ≤ 32 ∧ m ≤ 32) := and_comm
    rw [if_congr this rfl rfl]

/-- Witness for C5: INT against REAL in the registered catalog promotes
to the registered REAL type. -/
theorem getBiggerType_int_float_promotion_witness :
    getBiggerType catalogIndex intEntry realEntry = some realEntry := by
  have h := (getBiggerType_int_float_promotion catalogIndex intEntry realEntry realEntry
    lrealEntry true 16 32 none rfl rfl (by decide) (by decide) (by decide) rfl (by decide)
    rfl (by decide) (by norm_num) (by norm_num)).1
  simpa using h

/-- C9: get_bigger_type is not total on string-typed inputs: the
registered STRING type against a string type whose size is a
constant-expression reference is a same-class pair, the rank of the
constant-sized string reaches the todo panic of get_rank (modelled as
none), and get_bigger_type panics (returns none) in either argument
order. -/
theorem getBiggerType_string_const_size_panics :
    isSameTypeClass catalogIndex stringConstSizeEntry.definition stringEntry.definition = true ∧
    getRank catalogIndex.defaultFuel catalogIndex stringConstSizeEntry.definition = none ∧
    getBiggerType catalogIndex stringConstSizeEntry stringEntry = none ∧
    getBiggerType catalogIndex stringEntry stringConstSizeEntry = none := by decide

/-- C2 counterexample: in the indexing stage of a project with one user
unit, the very first event on the global index is the import of that
unit, and a built-in type registration only happens afterwards, so the
built-in registration does not precede the user imports. -/
theorem indexStage_import_precedes_builtin_registration :
    (indexStageEvents [0])[0]? = some (.importUnit 0) ∧
    (indexStageEvents [0])[1]? = some (.registerBuiltinType "VOID") := by decide

/-- C2 (amended): in the indexing stage every built-in type is registered
exactly once, and every import of a per-unit user index happens strictly
before every built-in type registration. -/
theorem indexStage_builtins_once_after_user_imports :
    ∀ (units : List Nat),
      (∀ name, name ∈ builtinTypeNames →
        (indexStageEvents units).count (.registerBuiltinType name) = 1) ∧
      (∀ (i j u : Nat) (name : String),
        (indexStageEvents units)[i]? = some (.importUnit u) →
        (indexStageEvents units)[j]? = some (.registerBuiltinType name) → i < j) := by
  intro units
  constructor
  · intro name hname
    unfold indexStageEvents
    rw [List.count_append, List.count_append]
    have h1 : (units.map IndexEvent.importUnit).count (.registerBuiltinType name) = 0 := by
      rw [List.count_eq_zero]
      intro hmem
      obtain ⟨u, _, h⟩ := List.mem_map.mp hmem
      exact IndexEvent.noConfusion h
    have h2 : (builtinTypeNames.map IndexEvent.registerBuiltinType).count
        (.registerBuiltinType name) = 1 := by
      have hinj : Function.Injective IndexEvent.registerBuiltinType := by
        intro x y h
        cases h
        rfl
      have hnd : (builtinTypeNames.map IndexEvent.registerBuiltinType).Nodup :=
        (by decide : builtinTypeNames.Nodup).map hinj
      exact List.count_eq_one_of_mem hnd (List.mem_map.mpr ⟨name, hname, rfl⟩)
    have h3 : ([IndexEvent.importBuiltinPous] : List IndexEvent).count
        (.registerBuiltinType name) = 0 := by
      rw [List.count_eq_zero]
      intro h
      simp at h
    rw [h1, h2, h3]
  · intro i j u name hi hj
    unfold indexStageEvents at hi hj
    set A := units.map IndexEvent.importUnit with hA
    rw [List.append_assoc] at hi hj
    set rest := builtinTypeNames.map IndexEvent.registerBuiltinType
      ++ [IndexEvent.importBuiltinPous] with hrest
    have hi_lt : i < A.length := by
      by_contra hlt
      rw [List.getElem?_append_right (by omega)] at hi
      have hmem := List.getElem?_mem hi
      rcases List.mem_append.mp hmem with hm | hm
      · obtain ⟨x, _, h⟩ := List.mem_map.mp hm
        exact IndexEvent.noConfusion h
      · simp at hm
    have hj_ge : A.length ≤ j := by
      by_contra hlt
      rw [List.getElem?_append_left (by omega)] at hj
      have hmem := List.getElem?_mem hj
      obtain ⟨x, _, h⟩ := List.mem_map.mp hmem
      exact IndexEvent.noConfusion h
    omega

/-- Witness for the amended C2 theorem: with one user unit the VOID
built-in is registered exactly once. -/
theorem indexStage_builtins_once_after_user_imports_witness :
    (indexStageEvents [7]).count (.registerBuiltinType "VOID") = 1 :=
  (indexStage_builtins_once_after_user_imports [7]).1 "VOID" (by decide)

/-- C3 counterexample: the literal typing function maps the value 0 to
BOOL for both values of its signedness flag; it takes no hint input at
all, so 0 and 1 are typed BOOL also when the consumer hint is not BOOL,
while the smallest containing signed type of 0 is SINT. -/
theorem literal_zero_typed_bool_unconditionally :
    getLiteralActualSignedTypeName (.integer 0) true = some "BOOL" ∧
    getLiteralActualSignedTypeName (.integer 0) false = some "BOOL" ∧
    smallestSignedIntTypeName 0 = "SINT" ∧ ("BOOL" : String) ≠ "SINT" := by decide

/-- C3 (amended): a literal with value 0 or 1 is always typed BOOL,
independently of the signedness flag (and hence of any consumer hint);
every other signed integer literal is typed with the smallest signed type
among SINT, INT, DINT and LINT that contains its value (VOID when none
does). -/
theorem literal_int_smallest_signed_or_bool :
    ∀ (v : Int) (signed : Bool),
      ((v = 0 ∨ v = 1) → getLiteralActualSignedTypeName (.integer v) signed = some "BOOL") ∧
      (signed = true → v ≠ 0 → v ≠ 1 →
        getLiteralActualSignedTypeName (.integer v) signed = some (smallestSignedIntTypeName v)) := by
  intro v s
  constructor
  · intro h
    simp only [getLiteralActualSignedTypeName]
    rw [if_pos h]
  · rintro rfl h0 h1
    simp only [getLiteralActualSignedTypeName, smallestSignedIntTypeName]
    rw [if_neg (by tauto)]
    simp only [show ((true : Bool) = true) = True from by simp,
      show ((true : Bool) = false) = False from by simp, true_and, false_and, if_false]
    split_ifs <;> rfl

/-- Witness for the amended C3 theorem: 300 is typed with the smallest
containing signed type. -/
theorem literal_int_smallest_signed_or_bool_witness :
    getLiteralActualSignedTypeName (.integer 300) true = some (smallestSignedIntTypeName 300) :=
  (literal_int_smallest_signed_or_bool 300 true).2 rfl (by decide) (by decide)

/-- C4 counterexample: converting a path with the ll extension is an
error, although the claim maps both ll and ir to textual IR; the ir
extension does map to the textual IR kind. -/
theorem objectTryFromPath_ll_error :
    (objectTryFromPath "file.ll").isOk = false ∧
    objectTryFromPath "file.ir" = .ok (.ir "file.ir") := by decide

/-- C4 (amended): the conversion maps the o extension to the default
object kind, bc to bitcode, ir (but not ll) to textual IR, so to shared
object, a to archive and no extension to executable, and errors exactly
on every other extension. -/
theorem objectTryFromPath_extension_mapping :
    ∀ (p : String),
      (pathExtension p.data = none → objectTryFromPath p = .ok (.executable p)) ∧
      (pathExtension p.data = some "o".data → objectTryFromPath p = .ok (.dflt p)) ∧
      (pathExtension p.data = some "bc".data → objectTryFromPath p = .ok (.bitcode p)) ∧
      (pathExtension p.data = some "ir".data → objectTryFromPath p = .ok (.ir p)) ∧
      (pathExtension p.data = some "so".data → objectTryFromPath p = .ok (.shared p)) ∧
      (pathExtension p.data = some "a".data → objectTryFromPath p = .ok (.archive p)) ∧
      (∀ e, pathExtension p.data = some e →
        e ≠ "o".data → e ≠ "bc".data → e ≠ "ir".data → e ≠ "so".data → e ≠ "a".data →
        (objectTryFromPath p).isOk = false) := by
  intro p
  refine ⟨?_, ?_, ?_, ?_, ?_, ?_, ?_⟩
  · intro h; simp [objectTryFromPath, h]
  · intro h; simp [objectTryFromPath, h]
  · intro h; simp [objectTryFromPath, h]
  · intro h; simp [objectTryFromPath, h]
  · intro h; simp [objectTryFromPath, h]
  · intro h; simp [objectTryFromPath, h]
  · intro e he h1 h2 h3 h4 h5
    simp only [objectTryFromPath, he]
    rw [if_neg h1, if_neg h2, if_neg h3, if_neg h4, if_neg h5]
    rfl

/-- Witness for the amended C4 theorem: a bc path converts to bitcode. -/
theorem objectTryFromPath_extension_mapping_witness :
    objectTryFromPath "x.bc" = .ok (.bitcode "x.bc") :=
  (objectTryFromPath_extension_mapping "x.bc").2.2.1 (by decide)

/-- C6 counterexample: a dimension with literal start 5 and literal end 1
gets length 4294967293 from the wrapping cast to u32, although end minus
start plus one is -3; the computed length is not end - start + 1. -/
theorem dimension_length_wrap_counterexample :
    Dimension.getLength ⟨.literalInteger 5, .literalInteger 1⟩ catalogIndex = .ok 4294967293 ∧
    (1 : Int) - 5 + 1 = -3 ∧ ((4294967293 : Int) ≠ -3) := by decide

/-- C6 (amended): when a dimension has literal bounds with start at most
end (and the length representable in u32), its length is
end - start + 1; and for an array whose element type resolves with size s
bits and whose dimension lengths all resolve (their product and its
product with s fitting u32), the array size in bits is s times the
product of the lengths. -/
theorem array_size_characterization :
    (∀ (idx : Index) (s e : Int), s ≤ e → e - s + 1 < (2 ^ 32 : Int) →
      Dimension.getLength ⟨.literalInteger s, .literalInteger e⟩ idx = .ok (e - s + 1).toNat) ∧
    (∀ (fuel : Nat) (idx : Index) (inner : String) (dims : List Dimension)
      (innerDT : DataType) (s : Nat) (ls : List Nat),
      idx.getType inner = some innerDT →
      getSizeInBits fuel idx innerDT.definition = some s →
      dims.mapM (fun dim => (dim.getLength idx).toOption) = some ls →
      ls.prod < U32MOD → s * ls.prod < U32MOD →
      getSizeInBits (fuel + 1) idx (.array inner dims) = some (s * ls.prod)) := by
  constructor
  · intro idx s e hse hlt
    simp only [Dimension.getLength, TypeSize.asIntValue, bind, Except.bind, pure, Except.pure]
    rw [Int.emod_eq_of_lt (by omega) hlt]
  · intro fuel idx inner dims innerDT s ls hg hsz hmap hp hsp
    obtain ⟨b, hb, hbs⟩ := Option.map_eq_some'.mp hsz
    have hdvd : 8 ∣ s := ⟨b.value, by rw [← hbs]; simp [Bytes.bits, Nat.mul_comm]⟩
    simp only [getSizeInBits, getSize, Index.getTypeInformationOrVoid, hg]
    rw [show (getSize fuel idx innerDT.definition).map Bytes.bits = some s from hsz, hmap]
    simp only [Nat.mod_eq_of_lt hp, Nat.mod_eq_of_lt hsp]
    exact congrArg some (bits_fromBits_of_dvd (Dvd.dvd.mul_right hdvd _))

/-- Witness for the amended C6 theorem: an array of five INT16 elements
is 80 bits. -/
theorem array_size_characterization_witness :
    getSizeInBits 2 catalogIndex
      (.array "INT16" [⟨.literalInteger 0, .literalInteger 4⟩]) = some 80 := by
  have h := array_size_characterization.2 1 catalogIndex "INT16"
    [⟨.literalInteger 0, .literalInteger 4⟩] ⟨"INT16", none, .integer true 16 none, .signed, none⟩
    16 [5] (by decide) (by decide) (by decide) (by decide) (by decide)
  simpa using h

/-- C7 counterexample: a function and a type sharing a name produce no
ambiguous-datatype diagnostic (as the duplicates validation test of the
repository pins), although the claim requires one whenever a type and a
POU of any kind share a name; a function block and a type sharing a name
do produce one diagnostic per declaration. -/
theorem ambiguousDatatype_function_type_no_diagnostic :
    ambiguousDatatypeDiagnostics [.pouDecl .function "foo", .typeDecl "foo"] = [] ∧
    ambiguousDatatypeDiagnostics [.pouDecl .functionBlock "foo", .typeDecl "foo"] =
      [⟨"foo", "Ambiguous datatype."⟩, ⟨"foo", "Ambiguous datatype."⟩] := by decide

/-- C7 (amended): an ambiguous-datatype diagnostic is emitted for every
datatype-registering declaration (a declared type, or a POU of a kind
other than function) whose name is shared with another
datatype-registering declaration; a function and a type sharing a name
yield no ambiguous-datatype diagnostic. -/
theorem ambiguousDatatype_registering_collisions :
    ∀ (decls : List GlobalDecl) (d : GlobalDecl),
      (d ∈ decls → d.registersDatatype = true →
        2 ≤ (decls.filter GlobalDecl.registersDatatype).countP (fun e => e.name = d.name) →
        (⟨d.name, "Ambiguous datatype."⟩ : Diag) ∈ ambiguousDatatypeDiagnostics decls) ∧
      (∀ n : String,
        ambiguousDatatypeDiagnostics [.pouDecl .function n, .typeDecl n] = []) := by
  intro decls d
  constructor
  · intro hmem hreg hcount
    unfold ambiguousDatatypeDiagnostics
    refine List.mem_filterMap.mpr ⟨d, List.mem_filter.mpr ⟨hmem, hreg⟩, ?_⟩
    rw [if_pos hcount]
  · intro n
    simp [ambiguousDatatypeDiagnostics, GlobalDecl.registersDatatype, GlobalDecl.name,
      List.filter, List.countP, List.countP.go]

/-- Witness for the amended C7 theorem: two identically named types yield
an ambiguous-datatype diagnostic. -/
theorem ambiguousDatatype_registering_collisions_witness :
    (⟨"foo", "Ambiguous datatype."⟩ : Diag) ∈
      ambiguousDatatypeDiagnostics [.typeDecl "foo", .typeDecl "foo"] :=
  (ambiguousDatatype_registering_collisions [.typeDecl "foo", .typeDecl "foo"]
    (.typeDecl "foo")).1 (by decide) (by decide) (by decide)

lemma takeWhile_dropWhile_all_append (p : Char → Bool) (xs ys : List Char)
    (hx : ∀ c ∈ xs, p c = true) (hy : ∀ c ∈ ys.head?.toList, p c = false) :
    (xs ++ ys).takeWhile p = xs ∧ (xs ++ ys).dropWhile p = ys := by
  induction xs with
  | nil =>
    simp only [List.nil_append]
    cases ys with
    | nil => simp
    | cons y t =>
      have hpy : p y = false := hy y (by simp)
      simp [List.takeWhile_cons, List.dropWhile_cons, hpy]
  | cons x xs ih =>
    have hpx : p x = true := hx x (by simp)
    obtain ⟨h1, h2⟩ := ih (fun c hc => hx c (by simp [hc]))
    simp [List.takeWhile_cons, List.dropWhile_cons, hpx, h1, h2]

/-- C8: in the environment-substitution pass, a well-formed token (a
dollar followed by a maximal nonempty run of word characters) preceded by
dollar-free text is replaced by the value of the environment variable
when it is set and kept literally when it is not, and the scan continues
after the token; this pass runs on the descriptor text before JSON
deserialization. -/
theorem substEnvVars_substitutes_tokens :
    ∀ (env : String → Option String) (pre var post : List Char),
      (∀ c ∈ pre, c ≠ '$') → var ≠ [] → (∀ c ∈ var, isWordChar c = true) →
      (∀ c ∈ post.head?.toList, isWordChar c = false) →
      substEnvVars env (pre ++ '$' :: (var ++ post)) =
        pre ++ (match env ⟨var⟩ with
                | some v => v.data
                | none => '$' :: var) ++ substEnvVars env post := by
  intro env pre var post
  induction pre with
  | nil =>
    intro _ hvar hw hpost
    obtain ⟨ht, hd⟩ := takeWhile_dropWhile_all_append isWordChar var post hw hpost
    simp only [List.nil_append]
    simp [substEnvVars, ht, hd, hvar]
  | cons c pre ih =>
    intro hpre hvar hw hpost
    have hc : c ≠ '$' := hpre c (by simp)
    simp only [List.cons_append]
    rw [show substEnvVars env (c :: (pre ++ '$' :: (var ++ post))) =
        c :: substEnvVars env (pre ++ '$' :: (var ++ post)) from by
      simp [substEnvVars, hc]]
    rw [ih (fun x hx => hpre x (by simp [hx])) hvar hw hpost]

/-- Environment used by the C8 witness. -/
def envHome : String → Option String :=
  fun v => if v = "HOME" then some "/root" else none

/-- Witness for the C8 theorem: the HOME token inside a concrete
descriptor text is substituted. -/
theorem substEnvVars_substitutes_tokens_witness :
    substEnvVars envHome (['a'] ++ '$' :: ("HOME".data ++ ['=', 'x'])) =
      ['a'] ++ (match envHome ⟨"HOME".data⟩ with
                | some v => v.data
                | none => '$' :: "HOME".data) ++ substEnvVars envHome ['=', 'x'] :=
  substEnvVars_substitutes_tokens envHome ['a'] "HOME".data ['=', 'x']
    (by decide) (by decide) (by decide) (by decide)

lemma substEnvVars_no_dollar (env : String → Option String) (l : List Char)
    (h : ∀ c ∈ l, c ≠ '$') : substEnvVars env l = l := by
  induction l with
  | nil => simp [substEnvVars]
  | cons c t ih =>
    have hc : c ≠ '$' := h c (by simp)
    simp [substEnvVars, hc]
    exact ih (fun x hx => h x (by simp [hx]))

lemma doubleBackslashes_length (l : List Char) :
    (doubleBackslashes l).length = l.length + l.count '\\' := by
  induction l with
  | nil => simp [doubleBackslashes]
  | cons c t ih =>
    by_cases hc : c = '\\' <;>
      simp [doubleBackslashes, hc, List.count_cons] at ih ⊢ <;> omega

/-- C10: the descriptor preprocessing of try_parse rewrites, after
environment substitution and before JSON deserialization, every single
backslash to two backslashes; on any text without a dollar it acts as
exactly this rewriting, so a text containing a backslash and no token is
altered. -/
theorem resolveEnvironmentVariables_doubles_backslashes :
    ∀ (env : String → Option String) (l : List Char), (∀ c ∈ l, c ≠ '$') →
      resolveEnvironmentVariables env l = doubleBackslashes l ∧
      ('\\' ∈ l → resolveEnvironmentVariables env l ≠ l) := by
  intro env l h
  have hid := substEnvVars_no_dollar env l h
  constructor
  · rw [resolveEnvironmentVariables, hid]
  · intro hmem heq
    rw [resolveEnvironmentVariables, hid] at heq
    have hlen := doubleBackslashes_length l
    have hpos : 0 < l.count '\\' := List.count_pos_iff.mpr hmem
    rw [heq] at hlen
    omega

/-- Witness for the C10 theorem: a backslash-containing dollar-free text
is altered by the preprocessing. -/
theorem resolveEnvironmentVariables_doubles_backslashes_witness :
    resolveEnvironmentVariables (fun _ => none) ['a', '\\'] ≠ ['a', '\\'] :=
  (resolveEnvironmentVariables_doubles_backslashes (fun _ => none) ['a', '\\']
    (by decide)).2 (by decide)

end Rusty
